import Mathlib

/-!
Shallow embedding of the Thumbtack auto-responder
(`email_monitor.py`, `browser_controller.py`, `main.py`, `config.py`).

Conventions of the embedding:
- Python strings are `List Char`; `str.lower` is ASCII lowercasing via
  `Char.toLower`; Python substring containment (`needle in hay`) is
  `containsSub`.
- Durations are modelled in milliseconds as naturals, except the
  browser-restart interval and the elapsed wall-clock time, which are in
  seconds as in the source (`BROWSER_RESTART_INTERVAL`).
- Randomness is modelled by explicit draw streams: a `Nat → Nat` argument
  stands for the successive values returned by the corresponding
  `random.uniform` / `random.randint` call, and the range guarantee of the
  library appears as a hypothesis on the stream.
- Side-effecting control flow is modelled as traces of explicit actions;
  fallible element lookups are oracles `Nat → Bool` saying which selector
  candidates resolve.
-/

namespace Thumbtack

/-- ASCII lowercasing of a Python string (`str.lower`). -/
def lowerL (s : List Char) : List Char := s.map Char.toLower

/-- `startsWithL hay pre` : `hay` begins with `pre`. -/
def startsWithL : List Char → List Char → Bool
  | _, [] => true
  | [], _ :: _ => false
  | a :: hay, b :: pre => a == b && startsWithL hay pre

/-- Python substring containment `pat in hay`. -/
def containsSub : List Char → List Char → Bool
  | [], pat => pat.isEmpty
  | a :: t, pat => startsWithL (a :: t) pat || containsSub t pat

/-- An IMAP message as seen by `EmailMonitor.is_thumbtack_lead`
(`email_monitor.py`).  `hasFrom = false` models an object without a
`from_` attribute (the `hasattr` guard in the source); `subject = none`
models a `None` subject (the falsy guard in the source).  The body
fields (`text`, `html`, `date`) play no role in classification and are
omitted. -/
structure MailMessage where
  uid : Nat
  hasFrom : Bool
  from_ : List Char
  subject : Option (List Char)
  deriving DecidableEq, Repr

/-- The sender-domain test string (`email_monitor.py` line 62). -/
def thumbtackDomain : List Char := "thumbtack.com".toList

/-- The fixed keyword set (`email_monitor.py` line 67). -/
def leadKeywords : List (List Char) :=
  ["new lead".toList, "new customer".toList, "new request".toList,
   "sent you a message".toList]

/-- `sender = msg.from_.lower() if hasattr(msg, 'from_') else ''`. -/
def senderLower (m : MailMessage) : List Char :=
  if m.hasFrom then lowerL m.from_ else []

/-- `subject = msg.subject.lower() if msg.subject else ''`. -/
def subjectLower (m : MailMessage) : List Char :=
  match m.subject with
  | some s => if s.isEmpty then [] else lowerL s
  | none => []

/-- `EmailMonitor.is_thumbtack_lead` (`email_monitor.py` lines 50-69). -/
def is_thumbtack_lead (m : MailMessage) : Bool :=
  if !containsSub (senderLower m) thumbtackDomain then false
  else leadKeywords.any fun kw => containsSub (subjectLower m) kw

/-- A message rewritten by a character map on the sender and the subject
(used to state casing-insensitivity of the classifier). -/
def recase (f : Char → Char) (m : MailMessage) : MailMessage :=
  { m with from_ := m.from_.map f, subject := m.subject.map (·.map f) }

theorem startsWithL_iff (hay pre : List Char) :
    startsWithL hay pre = true ↔ ∃ rest, hay = pre ++ rest := by
  induction pre generalizing hay with
  | nil => simp [startsWithL]
  | cons b bs ih =>
    cases hay with
    | nil => simp [startsWithL]
    | cons a t =>
      simp only [startsWithL, Bool.and_eq_true, beq_iff_eq, ih,
        List.cons_append, List.cons.injEq]
      constructor
      · rintro ⟨h1, rest, h2⟩
        exact ⟨rest, h1, h2⟩
      · rintro ⟨rest, h1, h2⟩
        exact ⟨h1, rest, h2⟩

theorem containsSub_iff (hay pat : List Char) :
    containsSub hay pat = true ↔ ∃ p q, hay = p ++ pat ++ q := by
  induction hay with
  | nil =>
    simp only [containsSub, List.isEmpty_iff]
    constructor
    · intro h; exact ⟨[], [], by simp [h]⟩
    · rintro ⟨p, q, h⟩
      rcases List.append_eq_nil.mp h.symm with ⟨h1, h2⟩
      rcases List.append_eq_nil.mp h1 with ⟨_, h3⟩
      exact h3
  | cons a t ih =>
    simp only [containsSub, Bool.or_eq_true, startsWithL_iff, ih]
    constructor
    · rintro (⟨rest, h⟩ | ⟨p, q, h⟩)
      · exact ⟨[], rest, by simpa using h⟩
      · exact ⟨a :: p, q, by simp [h]⟩
    · rintro ⟨p, q, h⟩
      cases p with
      | nil => exact Or.inl ⟨q, by simpa using h⟩
      | cons x p =>
        simp only [List.cons_append, List.cons.injEq] at h
        exact Or.inr ⟨p, q, h.2⟩

theorem is_thumbtack_lead_eq (m : MailMessage) :
    is_thumbtack_lead m =
      (containsSub (senderLower m) thumbtackDomain &&
        leadKeywords.any fun kw => containsSub (subjectLower m) kw) := by
  unfold is_thumbtack_lead
  cases h : containsSub (senderLower m) thumbtackDomain <;> simp [h]

theorem lowerL_map_of_toLower_eq (f : Char → Char)
    (hf : ∀ c, Char.toLower (f c) = Char.toLower c) (s : List Char) :
    lowerL (s.map f) = lowerL s := by
  simp only [lowerL, List.map_map]
  exact List.map_congr_left fun a _ => hf a

theorem senderLower_recase (f : Char → Char)
    (hf : ∀ c, Char.toLower (f c) = Char.toLower c) (m : MailMessage) :
    senderLower (recase f m) = senderLower m := by
  simp [senderLower, recase, lowerL_map_of_toLower_eq f hf]

theorem subjectLower_recase (f : Char → Char)
    (hf : ∀ c, Char.toLower (f c) = Char.toLower c) (m : MailMessage) :
    subjectLower (recase f m) = subjectLower m := by
  rcases m with ⟨u, hFrom, fr, subj⟩
  cases subj with
  | none => rfl
  | some s =>
    show (if (s.map f).isEmpty then ([] : List Char) else lowerL (s.map f)) =
      (if s.isEmpty then ([] : List Char) else lowerL s)
    rw [show (s.map f).isEmpty = s.isEmpty from by cases s <;> rfl,
      lowerL_map_of_toLower_eq f hf]

/-- C1: for every mail message, the classifier returns true iff the
(lowercased) sender contains `thumbtack.com` and the lowercased subject
contains at least one keyword of the fixed set, with arbitrary extra
substrings around the keyword; and the verdict is invariant under any
recasing of sender and subject (any character map that preserves the
lowercased character). -/
theorem c1_classifier :
    (∀ m : MailMessage, is_thumbtack_lead m = true ↔
      ((∃ p q, senderLower m = p ++ thumbtackDomain ++ q) ∧
        ∃ kw ∈ leadKeywords, ∃ p q, subjectLower m = p ++ kw ++ q)) ∧
    (∀ f : Char → Char, (∀ c, Char.toLower (f c) = Char.toLower c) →
      ∀ m : MailMessage, is_thumbtack_lead (recase f m) = is_thumbtack_lead m) := by
  constructor
  · intro m
    rw [is_thumbtack_lead_eq]
    simp only [Bool.and_eq_true, List.any_eq_true, containsSub_iff]
  · intro f hf m
    rw [is_thumbtack_lead_eq, is_thumbtack_lead_eq,
      senderLower_recase f hf m, subjectLower_recase f hf m]

/-- Witness for C1: the casing-preserving map swapping `n` to `N`
satisfies the hypothesis, and the classifier verdict on a concrete lead
message is unchanged by it (and both verdicts are true). -/
theorem c1_classifier_witness :
    (∀ c : Char, Char.toLower ((fun c => if c = 'n' then 'N' else c) c) =
      Char.toLower c) ∧
    is_thumbtack_lead
        (recase (fun c => if c = 'n' then 'N' else c)
          ⟨1, true, "leads@thumbtack.com".toList,
            some ("You have a new lead!".toList)⟩) =
      is_thumbtack_lead
        ⟨1, true, "leads@thumbtack.com".toList,
          some ("You have a new lead!".toList)⟩ ∧
    is_thumbtack_lead
        ⟨1, true, "leads@thumbtack.com".toList,
          some ("You have a new lead!".toList)⟩ = true := by
  refine ⟨?_, ?_, by decide⟩
  · intro c
    by_cases h : c = 'n'
    · subst h; decide
    · simp [h]
  · exact c1_classifier.2 (fun c => if c = 'n' then 'N' else c)
      (fun c => by
        by_cases h : c = 'n'
        · subst h; decide
        · simp [h])
      ⟨1, true, "leads@thumbtack.com".toList,
        some ("You have a new lead!".toList)⟩

/-- C10: the classifier is total — it returns a boolean for every
message — and returns `false` on a message with a missing sender
attribute, an empty sender, or an absent subject. -/
theorem c10_classifier_total (m : MailMessage)
    (h : m.hasFrom = false ∨ m.from_ = [] ∨ m.subject = none) :
    (is_thumbtack_lead m = true ∨ is_thumbtack_lead m = false) ∧
    is_thumbtack_lead m = false := by
  refine ⟨by cases is_thumbtack_lead m with
    | true => exact Or.inl rfl
    | false => exact Or.inr rfl, ?_⟩
  rw [is_thumbtack_lead_eq]
  rcases h with h | h | h
  · simp [senderLower, h, containsSub, thumbtackDomain]
  · rcases hFrom : m.hasFrom with _ | _
    · simp [senderLower, hFrom, containsSub, thumbtackDomain]
    · simp [senderLower, hFrom, h, lowerL, containsSub, thumbtackDomain]
  · have hsub : subjectLower m = [] := by simp [subjectLower, h]
    rw [hsub]
    simp [leadKeywords, containsSub]

/-- Witness for C10: a concrete message without the `from_` attribute is
classified `false`. -/
theorem c10_classifier_total_witness :
    ((⟨9, false, [], some ("new lead".toList)⟩ : MailMessage).hasFrom = false ∨
      (⟨9, false, [], some ("new lead".toList)⟩ : MailMessage).from_ = [] ∨
      (⟨9, false, [], some ("new lead".toList)⟩ : MailMessage).subject = none) ∧
    is_thumbtack_lead ⟨9, false, [], some ("new lead".toList)⟩ = false :=
  ⟨Or.inl rfl,
    (c10_classifier_total ⟨9, false, [], some ("new lead".toList)⟩ (Or.inl rfl)).2⟩

/-! ### The watch loop (`EmailMonitor.start_monitoring`, `email_monitor.py` 87-138)

The IMAP server is a list of messages (newest first) plus the set of uids
carrying the `\Seen` flag.  One wake of the IDLE loop fetches the unread
messages (`AND(seen=False)`, `limit=5`, `reverse=True`, `mark_seen=False`),
and runs the per-message body of the `for` loop.  `raises : Nat → Bool`
tells, by uid, whether the registered callback raises when invoked; the
source catches that exception (`except Exception`) and still executes the
`flag` call that follows. -/

structure ServerState where
  msgs : List MailMessage
  seen : List Nat
  deriving DecidableEq, Repr

/-- `self.mailbox.fetch(AND(seen=False), mark_seen=False, limit=5, reverse=True)`. -/
def fetchUnread (s : ServerState) : List MailMessage :=
  (s.msgs.filter fun m => decide (m.uid ∉ s.seen)).take 5

/-- The body of the `for msg in ... fetch(...)` loop: returns the uids on
which the callback was invoked and the uids flagged `\Seen`, in order.
For a lead, the callback runs first (its exception, if any, is caught and
logged) and the message is flagged afterwards; a non-lead is only logged
at debug level. -/
def processBatch (raises : Nat → Bool) : List MailMessage → List Nat × List Nat
  | [] => ([], [])
  | m :: rest =>
    if is_thumbtack_lead m then
      let _callbackRaised := raises m.uid
      let r := processBatch raises rest
      (m.uid :: r.1, m.uid :: r.2)
    else processBatch raises rest

/-- One wake of the IDLE loop: fetch, classify, invoke, flag.  Returns the
new server state and the uids on which the callback was invoked. -/
def wakeOnce (raises : Nat → Bool) (s : ServerState) : ServerState × List Nat :=
  let r := processBatch raises (fetchUnread s)
  ({ s with seen := r.2 ++ s.seen }, r.1)

/-- Several wakes of the loop; `arrivals` lists, per wake, the new
messages delivered to the mailbox since the previous wake (prepended,
newest first).  Returns the concatenated callback-invocation uids. -/
def runWakes (raises : Nat → Bool) : List (List MailMessage) → ServerState → List Nat
  | [], _ => []
  | arrival :: rest, s =>
    let s1 : ServerState := { s with msgs := arrival ++ s.msgs }
    let w := wakeOnce raises s1
    w.2 ++ runWakes raises rest w.1

theorem processBatch_eq (raises : Nat → Bool) (batch : List MailMessage) :
    processBatch raises batch =
      ((batch.filter is_thumbtack_lead).map MailMessage.uid,
        (batch.filter is_thumbtack_lead).map MailMessage.uid) := by
  induction batch with
  | nil => rfl
  | cons m rest ih =>
    by_cases h : is_thumbtack_lead m = true <;>
      simp [processBatch, h, ih, List.filter_cons]

/-- C2 counterexample: a fetched message that is not a lead is NOT
flagged `\Seen` by the wake that fetched it, and it is fetched again
(hence re-classified) on the next wake — refuting “every fetched message
is marked read”. -/
theorem c2_counterexample :
    (⟨1, true, "promo@example.com".toList, some ("hello".toList)⟩ : MailMessage) ∈
      fetchUnread ⟨[⟨1, true, "promo@example.com".toList, some ("hello".toList)⟩], []⟩ ∧
    (1 : Nat) ∉
      (processBatch (fun _ => false)
        (fetchUnread ⟨[⟨1, true, "promo@example.com".toList, some ("hello".toList)⟩], []⟩)).2 ∧
    (⟨1, true, "promo@example.com".toList, some ("hello".toList)⟩ : MailMessage) ∈
      fetchUnread
        (wakeOnce (fun _ => false)
          ⟨[⟨1, true, "promo@example.com".toList, some ("hello".toList)⟩], []⟩).1 := by
  decide

/-- C2 (amended): in each wake, exactly the qualifying fetched messages
are flagged `\Seen` (in fetch order); in particular no message that was
not fetched is flagged, and non-qualifying fetched messages are left
unread. -/
theorem c2_flagging (raises : Nat → Bool) (batch : List MailMessage) :
    (processBatch raises batch).2 =
      (batch.filter is_thumbtack_lead).map MailMessage.uid ∧
    (∀ u ∈ (processBatch raises batch).2, u ∈ batch.map MailMessage.uid) := by
  rw [processBatch_eq]
  refine ⟨rfl, fun u hu => ?_⟩
  rcases List.mem_map.mp hu with ⟨m, hm, rfl⟩
  exact List.mem_map_of_mem _ (List.mem_of_mem_filter hm)

theorem wakeOnce_fst (raises : Nat → Bool) (s : ServerState) :
    (wakeOnce raises s).1 =
      { s with
        seen := ((fetchUnread s).filter is_thumbtack_lead).map MailMessage.uid
          ++ s.seen } := by
  simp [wakeOnce, processBatch_eq]

theorem wakeOnce_snd (raises : Nat → Bool) (s : ServerState) :
    (wakeOnce raises s).2 =
      ((fetchUnread s).filter is_thumbtack_lead).map MailMessage.uid := by
  simp [wakeOnce, processBatch_eq]

theorem fetchUnread_sublist (s : ServerState) :
    List.Sublist (fetchUnread s) s.msgs :=
  (List.take_sublist 5 _).trans (List.filter_sublist s.msgs)

theorem mem_fetchUnread_unseen (s : ServerState) (m : MailMessage)
    (h : m ∈ fetchUnread s) : m.uid ∉ s.seen := by
  have h1 : m ∈ s.msgs.filter fun m => decide (m.uid ∉ s.seen) :=
    List.mem_of_mem_take h
  exact of_decide_eq_true (List.mem_filter.mp h1).2

/-- The uids invoked by one wake, as a short name for the proofs below. -/
def invokedUids (s : ServerState) : List Nat :=
  ((fetchUnread s).filter is_thumbtack_lead).map MailMessage.uid

theorem invokedUids_sublist (s : ServerState) :
    List.Sublist (invokedUids s) (s.msgs.map MailMessage.uid) :=
  (((List.filter_sublist (fetchUnread s)).trans (fetchUnread_sublist s)).map
    MailMessage.uid)

theorem mem_invokedUids_unseen (s : ServerState) (u : Nat)
    (h : u ∈ invokedUids s) : u ∉ s.seen := by
  rcases List.mem_map.mp h with ⟨m, hm, rfl⟩
  exact mem_fetchUnread_unseen s m (List.mem_of_mem_filter hm)

theorem runWakes_cons (raises : Nat → Bool) (a : List MailMessage)
    (rest : List (List MailMessage)) (s : ServerState) :
    runWakes raises (a :: rest) s =
      invokedUids ⟨a ++ s.msgs, s.seen⟩ ++
        runWakes raises rest
          ⟨a ++ s.msgs, invokedUids ⟨a ++ s.msgs, s.seen⟩ ++ s.seen⟩ := by
  simp [runWakes, wakeOnce, processBatch_eq, invokedUids]

/-- Invariant of the watch loop: with globally distinct server uids, the
complete invocation list is duplicate-free, and every invoked uid names a
server message that was unread when the run began. -/
theorem runWakes_spec (raises : Nat → Bool) :
    ∀ (arr : List (List MailMessage)) (s : ServerState),
      ((s.msgs ++ arr.flatten).map MailMessage.uid).Nodup →
      (runWakes raises arr s).Nodup ∧
      ∀ u ∈ runWakes raises arr s,
        u ∈ (s.msgs ++ arr.flatten).map MailMessage.uid ∧ u ∉ s.seen := by
  intro arr
  induction arr with
  | nil => intro s _; exact ⟨List.nodup_nil, by simp [runWakes]⟩
  | cons a rest ih =>
    intro s h
    rw [runWakes_cons]
    set s1 : ServerState := ⟨a ++ s.msgs, s.seen⟩ with hs1
    set inv : List Nat := invokedUids s1 with hinv
    set s2 : ServerState := ⟨a ++ s.msgs, inv ++ s.seen⟩ with hs2
    have hperm :
        ((s.msgs ++ (a :: rest).flatten).map MailMessage.uid).Perm
          (((a ++ s.msgs) ++ rest.flatten).map MailMessage.uid) := by
      refine List.Perm.map _ ?_
      rw [List.flatten_cons, ← List.append_assoc]
      exact (List.perm_append_comm.append_right rest.flatten)
    have h2 : (((a ++ s.msgs) ++ rest.flatten).map MailMessage.uid).Nodup :=
      (hperm.nodup_iff).mp h
    have hA : ((a ++ s.msgs).map MailMessage.uid).Nodup :=
      h2.sublist ((List.sublist_append_left (a ++ s.msgs) rest.flatten).map _)
    have hinv_nodup : inv.Nodup := hA.sublist (invokedUids_sublist s1)
    have hinv_mem : ∀ u ∈ inv, u ∈ (a ++ s.msgs).map MailMessage.uid :=
      fun u hu => (invokedUids_sublist s1).subset hu
    have hinv_unseen : ∀ u ∈ inv, u ∉ s.seen :=
      fun u hu => mem_invokedUids_unseen s1 u hu
    have ihres := ih s2 (by exact h2)
    have hdisj : inv.Disjoint (runWakes raises rest s2) := by
      intro u hu hu'
      have : u ∉ s2.seen := (ihres.2 u hu').2
      exact this (List.mem_append.mpr (Or.inl hu))
    refine ⟨List.Nodup.append hinv_nodup ihres.1 hdisj, ?_⟩
    intro u hu
    rcases List.mem_append.mp hu with hu | hu
    · refine ⟨?_, hinv_unseen u hu⟩
      have := hinv_mem u hu
      simp only [List.flatten_cons, List.map_append, List.mem_append] at this ⊢
      tauto
    · have hmem := (ihres.2 u hu).1
      have hseen : u ∉ s2.seen := (ihres.2 u hu).2
      constructor
      · simp only [List.flatten_cons, List.map_append, List.mem_append] at hmem ⊢
        tauto
      · intro hu'
        exact hseen (List.mem_append.mpr (Or.inr hu'))

theorem runWakes_raises_irrel (raises raises2 : Nat → Bool) :
    ∀ (arr : List (List MailMessage)) (s : ServerState),
      runWakes raises arr s = runWakes raises2 arr s := by
  intro arr
  induction arr with
  | nil => intro s; rfl
  | cons a rest ih =>
    intro s
    rw [runWakes_cons, runWakes_cons, ih]

/-- C9: a qualifying fetched message is flagged `\Seen` by the wake that
fetched it even when the registered callback raises (`raises` is
arbitrary and the run is unchanged by it), and — with globally distinct
server uids — the callback is invoked at most once per server message
across all wakes of the loop. -/
theorem c9_at_most_once (raises raises2 : Nat → Bool)
    (arr : List (List MailMessage)) (s : ServerState)
    (h : ((s.msgs ++ arr.flatten).map MailMessage.uid).Nodup) :
    (∀ m ∈ fetchUnread s, is_thumbtack_lead m = true →
      m.uid ∈ (wakeOnce raises s).1.seen) ∧
    (runWakes raises arr s).Nodup ∧
    runWakes raises arr s = runWakes raises2 arr s := by
  refine ⟨?_, (runWakes_spec raises arr s h).1,
    runWakes_raises_irrel raises raises2 arr s⟩
  intro m hm hlead
  rw [wakeOnce_fst]
  refine List.mem_append.mpr (Or.inl ?_)
  exact List.mem_map_of_mem _ (List.mem_filter.mpr ⟨hm, hlead⟩)

/-- Witness for C9: a callback that always raises, over a mailbox holding
one lead message and two further wakes; the lead is flagged and invoked
exactly once. -/
theorem c9_at_most_once_witness :
    ((((⟨[⟨7, true, "leads@thumbtack.com".toList,
          some ("You have a new lead!".toList)⟩], []⟩ : ServerState).msgs ++
        ([[], []] : List (List MailMessage)).flatten).map MailMessage.uid).Nodup) ∧
    ((∀ m ∈ fetchUnread (⟨[⟨7, true, "leads@thumbtack.com".toList,
          some ("You have a new lead!".toList)⟩], []⟩ : ServerState),
        is_thumbtack_lead m = true →
        m.uid ∈ (wakeOnce (fun _ => true)
          ⟨[⟨7, true, "leads@thumbtack.com".toList,
            some ("You have a new lead!".toList)⟩], []⟩).1.seen) ∧
      (runWakes (fun _ => true) [[], []]
        ⟨[⟨7, true, "leads@thumbtack.com".toList,
          some ("You have a new lead!".toList)⟩], []⟩).Nodup ∧
      runWakes (fun _ => true) [[], []]
          ⟨[⟨7, true, "leads@thumbtack.com".toList,
            some ("You have a new lead!".toList)⟩], []⟩ =
        runWakes (fun _ => false) [[], []]
          ⟨[⟨7, true, "leads@thumbtack.com".toList,
            some ("You have a new lead!".toList)⟩], []⟩) :=
  ⟨by decide,
    c9_at_most_once (fun _ => true) (fun _ => false) [[], []]
      ⟨[⟨7, true, "leads@thumbtack.com".toList,
        some ("You have a new lead!".toList)⟩], []⟩ (by decide)⟩

/-! ### Transport-failure recovery (`email_monitor.py` 127-136)

Under consecutive transport failures, each iteration of the `while True`
loop raises in `idle.wait`/`fetch`, enters the `except Exception`
handler, sleeps 30 s, disconnects, attempts `connect()`, and — if that
attempt fails — sleeps a further 60 s before the loop re-enters.  The
scenario is driven by the list of `connect()` outcomes, one per failing
iteration. -/

inductive MonEvent
  | waitError
  | sleepSec (secs : Nat)
  | connAttempt (ok : Bool)
  deriving DecidableEq, Repr

/-- Event trace of the monitoring loop across consecutive transport
failures; `script` lists the outcome of each reconnect attempt. -/
def monitorRetryTrace : List Bool → List MonEvent
  | [] => []
  | ok :: rest =>
    [.waitError, .sleepSec 30, .connAttempt ok] ++
      (if ok then [] else [.sleepSec 60]) ++ monitorRetryTrace rest

/-- Group the sleep durations that precede each reconnect attempt
(sleeps after the last attempt are dropped). -/
def splitDelays : List MonEvent → List Nat → List (List Nat)
  | [], _ => []
  | .connAttempt _ :: rest, acc => acc.reverse :: splitDelays rest []
  | .sleepSec s :: rest, acc => splitDelays rest (s :: acc)
  | .waitError :: rest, acc => splitDelays rest acc

def delaysBeforeAttempts (tr : List MonEvent) : List (List Nat) :=
  splitDelays tr []

def countAttempts (tr : List MonEvent) : Nat :=
  tr.countP fun e => match e with | .connAttempt _ => true | _ => false

/-- The delay pattern the code actually produces: every attempt is
immediately preceded by the 30 s sleep of the `except` handler, and an
attempt that follows a failed reconnect is additionally preceded by the
60 s sleep emitted after that failure. -/
def expectedDelays : List Nat → List Bool → List (List Nat)
  | _, [] => []
  | pre, ok :: rest =>
    (pre ++ [30]) :: expectedDelays (if ok then [] else [60]) rest

theorem splitDelays_monitorTrace (script : List Bool) :
    ∀ acc : List Nat,
      splitDelays (monitorRetryTrace script) acc =
        expectedDelays acc.reverse script := by
  induction script with
  | nil => intro acc; rfl
  | cons ok rest ih =>
    intro acc
    cases ok <;>
      simp [monitorRetryTrace, splitDelays, expectedDelays, ih,
        List.reverse_cons]

/-- C5 counterexample: with two consecutive failing reconnects, the
second reconnect attempt is preceded by the delays `[60, 30]` — 90
seconds in total, not the claimed ≈60 seconds. -/
theorem c5_counterexample :
    delaysBeforeAttempts (monitorRetryTrace [false, false]) = [[30], [60, 30]] ∧
    ([60, 30] : List Nat) ≠ [60] ∧ (60 + 30 : Nat) ≠ 60 := by
  refine ⟨by decide, by decide, by decide⟩

/-- C5 (amended): under any sequence of consecutive transport failures
the watcher makes one reconnect attempt per failure — retries are
unbounded and never terminate the loop — with the first attempt preceded
by a 30 s delay, an attempt following a failed reconnect preceded by
60 s + 30 s, and an attempt following a successful reconnect (whose wait
then fails again) preceded by 30 s. -/
theorem c5_retry_delays (script : List Bool) :
    countAttempts (monitorRetryTrace script) = script.length ∧
    delaysBeforeAttempts (monitorRetryTrace script) =
      expectedDelays [] script := by
  constructor
  · induction script with
    | nil => rfl
    | cons ok rest ih =>
      cases ok <;> simp [monitorRetryTrace, countAttempts, List.countP_append,
        List.countP_cons] at ih ⊢ <;> omega
  · simpa using splitDelays_monitorTrace script []

/-! ### Browser controller and orchestrator
(`browser_controller.py`, `main.py`, `config.py`)

Lead handling is modelled as a trace of actions.  Which selector
candidates of a chain resolve is an oracle `Nat → Bool` over the chain
index; `locateFirst n resolves` is the first-match-wins resolution over a
chain of length `n`.  `found1`/`found2` are the outcomes of the two
`find_unread_conversation` passes.  Delay actions carry the bounds (in
milliseconds) of the uniform distribution they are sampled from. -/

inductive OrchAction
  | restart
  | checkLogin
  | reactionDelay (loMs hiMs : Nat)
  | navigate
  | locateConv
  | refresh
  | settleDelay
  | convDelay
  | clickInput
  | typeMessage (msg : List Char) (loMs hiMs : Nat)
  | reviewDelay
  | clickSend (idx : Nat)
  | pressEnter
  deriving DecidableEq, Repr

/-- `HumanBehavior.reaction_delay`: `random.uniform(30, 50)` seconds
(`browser_controller.py` line 29), in milliseconds. -/
def reaction_delay_bounds : Nat × Nat := (30000, 50000)

/-- `HumanBehavior.typing_delay`: `random.uniform(0.04, 0.15)` seconds
(`browser_controller.py` line 36), in milliseconds. -/
def typing_delay_bounds : Nat × Nat := (40, 150)

/-- The reply text hardcoded in `ThumbтackBrowser.handle_new_lead`
(`browser_controller.py` line 313). -/
def lead_reply_message : List Char :=
  "Hi! Thanks for reaching out. I\x27m available for this project. Could you share more details about what you need?".toList

/-- First-match-wins resolution over an ordered selector chain of length
`n`: the index of the first resolving candidate. -/
def locateFirst (n : Nat) (resolves : Nat → Bool) : Option Nat :=
  (List.range n).find? resolves

/-- `ThumbтackBrowser.send_message` (`browser_controller.py` 212-282):
input chain of 5 candidates, send chain of 4 candidates, key-press
fallback.  Returns the success flag and the action trace. -/
def send_message (rInput rSend : Nat → Bool) (message : List Char) :
    Bool × List OrchAction :=
  match locateFirst 5 rInput with
  | none => (false, [])
  | some _ =>
    match locateFirst 4 rSend with
    | some j =>
      (true, [.clickInput,
        .typeMessage message typing_delay_bounds.1 typing_delay_bounds.2,
        .reviewDelay, .clickSend j])
    | none =>
      (true, [.clickInput,
        .typeMessage message typing_delay_bounds.1 typing_delay_bounds.2,
        .reviewDelay, .pressEnter])

/-- `ThumbтackBrowser.handle_new_lead` (`browser_controller.py` 284-319):
reaction delay, navigation, conversation location with one
refresh-and-retry, then the hardcoded reply is sent. -/
def browser_handle_new_lead (found1 found2 : Bool) (rInput rSend : Nat → Bool) :
    List OrchAction :=
  [.reactionDelay reaction_delay_bounds.1 reaction_delay_bounds.2, .navigate] ++
    (if found1 then
      [.locateConv, .convDelay] ++ (send_message rInput rSend lead_reply_message).2
    else if found2 then
      [.locateConv, .refresh, .settleDelay, .locateConv, .convDelay] ++
        (send_message rInput rSend lead_reply_message).2
    else
      [.locateConv, .refresh, .settleDelay, .locateConv])

/-- The configuration surface of `config.py` (environment-supplied).
Times are milliseconds except `BROWSER_RESTART_INTERVAL` (seconds). -/
structure Config where
  GMAIL_EMAIL : List Char
  GMAIL_APP_PASSWORD : List Char
  CHROME_PROFILE_DIR : List Char
  BROWSER_RESTART_INTERVAL : Nat
  DEFAULT_MESSAGE : List Char
  LOG_LEVEL : List Char
  LOG_FILE : List Char
  REACTION_TIME_MIN : Nat
  REACTION_TIME_MAX : Nat
  TYPING_SPEED_MIN : Nat
  TYPING_SPEED_MAX : Nat
  deriving DecidableEq, Repr

/-- The `config.py` defaults (values taken when the environment supplies
nothing). -/
def defaultConfig : Config :=
  ⟨[], [], "chrome_profile".toList, 7200, lead_reply_message,
    "INFO".toList, "logs/bot.log".toList, 30000, 50000, 40, 150⟩

/-- `ThumbtackBot.handle_new_lead` (`main.py` 111-141): the lazily
evaluated restart policy around the browser handler.  `elapsedSec` is
`datetime.now() - self.last_browser_restart` in seconds;
`loginOkAfterRestart` is the outcome of the post-restart
`check_login_status`. -/
def bot_handle_new_lead (c : Config) (elapsedSec : Nat)
    (loginOkAfterRestart found1 found2 : Bool) (rInput rSend : Nat → Bool) :
    List OrchAction :=
  if c.BROWSER_RESTART_INTERVAL < elapsedSec then
    [.restart, .checkLogin] ++
      (if loginOkAfterRestart then
        browser_handle_new_lead found1 found2 rInput rSend
      else [])
  else browser_handle_new_lead found1 found2 rInput rSend

theorem restart_not_mem_send (rInput rSend : Nat → Bool) (msg : List Char) :
    OrchAction.restart ∉ (send_message rInput rSend msg).2 := by
  cases h1 : locateFirst 5 rInput <;> cases h2 : locateFirst 4 rSend <;>
    simp [send_message, h1, h2]

theorem restart_not_mem_browser (found1 found2 : Bool)
    (rInput rSend : Nat → Bool) :
    OrchAction.restart ∉ browser_handle_new_lead found1 found2 rInput rSend := by
  have hs := restart_not_mem_send rInput rSend lead_reply_message
  cases found1 <;> cases found2 <;>
    simp_all [browser_handle_new_lead]

/-- C3 counterexample: with the elapsed time exactly equal to the
configured interval — which satisfies the claim's “greater than or
equal” trigger — no restart is performed (the source compares with
strict `>`). -/
theorem c3_counterexample :
    defaultConfig.BROWSER_RESTART_INTERVAL ≤ 7200 ∧
    OrchAction.restart ∉
      bot_handle_new_lead defaultConfig 7200 true true true
        (fun _ => true) (fun _ => true) := by
  refine ⟨by decide, ?_⟩
  have h : ¬ defaultConfig.BROWSER_RESTART_INTERVAL < 7200 := by decide
  rw [bot_handle_new_lead, if_neg h]
  exact restart_not_mem_browser true true _ _

/-- C3 (amended): when the elapsed time strictly exceeds the interval,
`restart()` runs exactly once, before anything else (in particular
before any navigation), followed by the login re-check; if that re-check
fails the trace stops there, with no navigation and no send.  When the
elapsed time is less than or equal to the interval, no restart occurs. -/
theorem c3_restart_policy (c : Config) (elapsedSec : Nat)
    (loginOk found1 found2 : Bool) (rInput rSend : Nat → Bool) :
    (c.BROWSER_RESTART_INTERVAL < elapsedSec →
      bot_handle_new_lead c elapsedSec loginOk found1 found2 rInput rSend =
        .restart :: .checkLogin ::
          (if loginOk then browser_handle_new_lead found1 found2 rInput rSend
          else []) ∧
      OrchAction.restart ∉ browser_handle_new_lead found1 found2 rInput rSend) ∧
    (elapsedSec ≤ c.BROWSER_RESTART_INTERVAL →
      bot_handle_new_lead c elapsedSec loginOk found1 found2 rInput rSend =
        browser_handle_new_lead found1 found2 rInput rSend ∧
      OrchAction.restart ∉
        bot_handle_new_lead c elapsedSec loginOk found1 found2 rInput rSend) := by
  constructor
  · intro h
    rw [bot_handle_new_lead, if_pos h]
    exact ⟨rfl, restart_not_mem_browser found1 found2 rInput rSend⟩
  · intro h
    have h' : ¬ c.BROWSER_RESTART_INTERVAL < elapsedSec := by omega
    rw [bot_handle_new_lead, if_neg h']
    exact ⟨rfl, restart_not_mem_browser found1 found2 rInput rSend⟩

/-- Witness for C3 (amended): one second past the interval with a failed
post-restart login re-check — the trace is exactly restart then login
check, nothing further. -/
theorem c3_restart_policy_witness :
    defaultConfig.BROWSER_RESTART_INTERVAL < 7201 ∧
    (bot_handle_new_lead defaultConfig 7201 false true true
        (fun _ => true) (fun _ => true) =
      .restart :: .checkLogin ::
        (if false then browser_handle_new_lead true true
          (fun _ => true) (fun _ => true) else []) ∧
      OrchAction.restart ∉ browser_handle_new_lead true true
        (fun _ => true) (fun _ => true)) :=
  ⟨by decide,
    (c3_restart_policy defaultConfig 7201 false true true
      (fun _ => true) (fun _ => true)).1 (by decide)⟩

theorem locateConv_not_mem_send (rInput rSend : Nat → Bool) (msg : List Char) :
    OrchAction.locateConv ∉ (send_message rInput rSend msg).2 := by
  cases h1 : locateFirst 5 rInput <;> cases h2 : locateFirst 4 rSend <;>
    simp [send_message, h1, h2]

/-- C4: when the first conversation-location pass fails, the page is
refreshed, a settle delay applied, and location retried exactly once
(two location attempts in total); when the second pass also fails, the
trace ends there — no message is typed, no send control is clicked, no
key-press send occurs. -/
theorem c4_refresh_retry (found2 : Bool) (rInput rSend : Nat → Bool) :
    browser_handle_new_lead false found2 rInput rSend =
      [.reactionDelay 30000 50000, .navigate, .locateConv, .refresh,
        .settleDelay] ++
        (if found2 then
          [.locateConv, .convDelay] ++
            (send_message rInput rSend lead_reply_message).2
        else [.locateConv]) ∧
    (browser_handle_new_lead false found2 rInput rSend).count .locateConv = 2 ∧
    browser_handle_new_lead false false rInput rSend =
      [.reactionDelay 30000 50000, .navigate, .locateConv, .refresh,
        .settleDelay, .locateConv] ∧
    (∀ m loMs hiMs, OrchAction.typeMessage m loMs hiMs ∉
      browser_handle_new_lead false false rInput rSend) ∧
    (∀ j, OrchAction.clickSend j ∉
      browser_handle_new_lead false false rInput rSend) ∧
    OrchAction.pressEnter ∉ browser_handle_new_lead false false rInput rSend := by
  have hsend := locateConv_not_mem_send rInput rSend lead_reply_message
  refine ⟨?_, ?_, ?_, ?_, ?_, ?_⟩
  · cases found2 <;> simp [browser_handle_new_lead, reaction_delay_bounds]
  · cases found2 <;>
      simp [browser_handle_new_lead, List.count_append, List.count_cons,
        List.count_eq_zero.mpr hsend]
  · simp [browser_handle_new_lead, reaction_delay_bounds]
  · intro m loMs hiMs; simp [browser_handle_new_lead]
  · intro j; simp [browser_handle_new_lead]
  · simp [browser_handle_new_lead]

/-- C7: after the message has been typed (the input chain resolved), if
no candidate in the send-control chain resolves, the message is sent by
a terminal key press on the input element and the operation reports
success. -/
theorem c7_send_fallback (rInput rSend : Nat → Bool) (message : List Char)
    (hin : (locateFirst 5 rInput).isSome = true)
    (hsend : ∀ j, j < 4 → rSend j = false) :
    (send_message rInput rSend message).1 = true ∧
    (send_message rInput rSend message).2 =
      [.clickInput, .typeMessage message 40 150, .reviewDelay, .pressEnter] := by
  have hnone : locateFirst 4 rSend = none := by
    refine List.find?_eq_none.mpr fun x hx => ?_
    simp [hsend x (List.mem_range.mp hx)]
  rcases Option.isSome_iff_exists.mp hin with ⟨i, hi⟩
  simp [send_message, hi, hnone, typing_delay_bounds]

/-- Witness for C7: every input candidate resolves, no send candidate
does; the send succeeds through the key-press fallback. -/
theorem c7_send_fallback_witness :
    (locateFirst 5 (fun _ => true)).isSome = true ∧
    ((send_message (fun _ => true) (fun _ => false) ("ok".toList)).1 = true ∧
      (send_message (fun _ => true) (fun _ => false) ("ok".toList)).2 =
        [.clickInput, .typeMessage ("ok".toList) 40 150, .reviewDelay,
          .pressEnter]) :=
  ⟨by decide,
    c7_send_fallback (fun _ => true) (fun _ => false) ("ok".toList)
      (by decide) (fun j _ => rfl)⟩

/-- A configuration with every behaviour-relevant value overridden away
from its default. -/
def overriddenConfig : Config :=
  ⟨"user@example.com".toList, "secret".toList, "profile".toList, 7200,
    "Custom reply".toList, "INFO".toList, "logs/bot.log".toList,
    10000, 20000, 200, 300⟩

/-- C8 (code bug): lead handling ignores the environment-supplied
reaction-time bounds, typing-speed bounds and reply template —
`browser_controller.py` never reads `Config`.  The trace is identical
for every configuration, still samples the reaction delay from
[30 s, 50 s] and the keystroke delay from [40 ms, 150 ms], and types the
hardcoded template, never the overridden `DEFAULT_MESSAGE`. -/
theorem c8_config_ignored :
    (∀ c : Config,
      bot_handle_new_lead c 0 true true true (fun _ => true) (fun _ => true) =
        bot_handle_new_lead defaultConfig 0 true true true
          (fun _ => true) (fun _ => true)) ∧
    overriddenConfig.DEFAULT_MESSAGE ≠ lead_reply_message ∧
    (overriddenConfig.REACTION_TIME_MIN, overriddenConfig.REACTION_TIME_MAX) ≠
      reaction_delay_bounds ∧
    (overriddenConfig.TYPING_SPEED_MIN, overriddenConfig.TYPING_SPEED_MAX) ≠
      typing_delay_bounds ∧
    OrchAction.reactionDelay 30000 50000 ∈
      bot_handle_new_lead overriddenConfig 0 true true true
        (fun _ => true) (fun _ => true) ∧
    OrchAction.typeMessage lead_reply_message 40 150 ∈
      bot_handle_new_lead overriddenConfig 0 true true true
        (fun _ => true) (fun _ => true) ∧
    ∀ loMs hiMs, OrchAction.typeMessage overriddenConfig.DEFAULT_MESSAGE loMs hiMs ∉
      bot_handle_new_lead overriddenConfig 0 true true true
        (fun _ => true) (fun _ => true) := by
  have htr : bot_handle_new_lead overriddenConfig 0 true true true
      (fun _ => true) (fun _ => true) =
      [.reactionDelay 30000 50000, .navigate, .locateConv, .convDelay,
        .clickInput, .typeMessage lead_reply_message 40 150, .reviewDelay,
        .clickSend 0] := by
    rfl
  refine ⟨?_, by decide, by decide, by decide, ?_, ?_, ?_⟩
  · intro c
    rw [bot_handle_new_lead, if_neg (Nat.not_lt_zero _),
      bot_handle_new_lead, if_neg (Nat.not_lt_zero _)]
  · rw [htr]; simp
  · rw [htr]; simp
  · intro loMs hiMs
    rw [htr]
    have hne : overriddenConfig.DEFAULT_MESSAGE ≠ lead_reply_message := by decide
    simp [hne]

/-! ### Human-paced typing (`HumanBehavior.human_type`,
`browser_controller.py` 39-56)

For each character index `i` the code sleeps `typing_delay()` (one draw
of `random.uniform(0.04, 0.15)`, stream `dKey`, milliseconds) and then,
when `i > 0 and i % random.randint(15, 30) == 0` (a fresh draw per
character, stream `dGap`), additionally sleeps
`random.uniform(0.3, 0.8)` (stream `dThink`, milliseconds). -/

inductive TypeEvent
  | key (c : Char)
  | keyDelay (ms : Nat)
  | thinkPause (ms : Nat)
  deriving DecidableEq, Repr

def human_type (dKey dGap dThink : Nat → Nat) (text : List Char) :
    List TypeEvent :=
  (List.range text.length).flatMap fun i =>
    [.key (text.getD i ' '), .keyDelay (dKey i)] ++
      (if 0 < i ∧ i % dGap i = 0 then [.thinkPause (dThink i)] else [])

def keyDelayValues (tr : List TypeEvent) : List Nat :=
  tr.filterMap fun e => match e with | .keyDelay d => some d | _ => none

def thinkPauseValues (tr : List TypeEvent) : List Nat :=
  tr.filterMap fun e => match e with | .thinkPause d => some d | _ => none

/-- The character indices at which a thinking pause fires, given the
`randint(15, 30)` draw stream. -/
def pausePositions (dGap : Nat → Nat) (len : Nat) : List Nat :=
  (List.range len).filter fun i => decide (0 < i ∧ i % dGap i = 0)

theorem keyDelayValues_chunks (dKey dGap dThink : Nat → Nat)
    (text : List Char) (l : List Nat) :
    keyDelayValues (l.flatMap fun i =>
      [.key (text.getD i ' '), .keyDelay (dKey i)] ++
        (if 0 < i ∧ i % dGap i = 0 then [.thinkPause (dThink i)] else [])) =
      l.map dKey := by
  induction l with
  | nil => rfl
  | cons x xs ih =>
    by_cases h : 0 < x ∧ x % dGap x = 0 <;>
      simp [keyDelayValues, List.flatMap_cons, List.filterMap_append,
        List.filterMap_cons, h] <;>
      simpa [keyDelayValues] using ih

theorem thinkPauseValues_chunks (dKey dGap dThink : Nat → Nat)
    (text : List Char) (l : List Nat) :
    thinkPauseValues (l.flatMap fun i =>
      [.key (text.getD i ' '), .keyDelay (dKey i)] ++
        (if 0 < i ∧ i % dGap i = 0 then [.thinkPause (dThink i)] else [])) =
      (l.filter fun i => decide (0 < i ∧ i % dGap i = 0)).map dThink := by
  induction l with
  | nil => rfl
  | cons x xs ih =>
    by_cases h : 0 < x ∧ x % dGap x = 0 <;>
      simp [thinkPauseValues, List.flatMap_cons, List.filterMap_append,
        List.filterMap_cons, List.filter_cons, h] <;>
      simpa [thinkPauseValues] using ih

/-- C6 counterexample: with every `randint(15, 30)` draw inside
[15, 30], characters 15 and 16 BOTH fire a thinking pause — two pauses
one character apart — refuting “one pause per 15–30 characters”. -/
theorem c6_counterexample :
    (∀ i, i < 17 →
      15 ≤ (fun i => if i = 16 then 16 else 15) i ∧
        (fun i => if i = 16 then 16 else 15) i ≤ 30) ∧
    pausePositions (fun i => if i = 16 then 16 else 15) 17 = [15, 16] ∧
    thinkPauseValues
        (human_type (fun _ => 40) (fun i => if i = 16 then 16 else 15)
          (fun _ => 300) (List.replicate 17 'a')) = [300, 300] ∧
    16 - 15 < 15 := by
  refine ⟨by decide, by decide, by decide, by decide⟩

/-- C6 (amended): typing a text of length L produces exactly L keystroke
delays, the i-th equal to the i-th `uniform(0.04 s, 0.15 s)` draw (hence
in [40 ms, 150 ms]); a thinking pause, drawn from
`uniform(0.3 s, 0.8 s)` (hence in [300 ms, 800 ms]), fires at exactly
those positions `i ≥ 1` whose fresh `randint(15, 30)` draw divides `i` —
the spacing of pauses is NOT guaranteed to be 15–30 characters. -/
theorem c6_typing_pacing (dKey dGap dThink : Nat → Nat) (text : List Char)
    (hk : ∀ i, 40 ≤ dKey i ∧ dKey i ≤ 150)
    (ht : ∀ i, 300 ≤ dThink i ∧ dThink i ≤ 800) :
    keyDelayValues (human_type dKey dGap dThink text) =
      (List.range text.length).map dKey ∧
    (keyDelayValues (human_type dKey dGap dThink text)).length = text.length ∧
    (∀ d ∈ keyDelayValues (human_type dKey dGap dThink text),
      40 ≤ d ∧ d ≤ 150) ∧
    thinkPauseValues (human_type dKey dGap dThink text) =
      (pausePositions dGap text.length).map dThink ∧
    (∀ d ∈ thinkPauseValues (human_type dKey dGap dThink text),
      300 ≤ d ∧ d ≤ 800) := by
  have hkv := keyDelayValues_chunks dKey dGap dThink text (List.range text.length)
  have htv := thinkPauseValues_chunks dKey dGap dThink text (List.range text.length)
  refine ⟨hkv, ?_, ?_, ?_, ?_⟩
  · rw [human_type] at *
    rw [hkv, List.length_map, List.length_range]
  · intro d hd
    rw [human_type] at hd
    rw [hkv] at hd
    rcases List.mem_map.mp hd with ⟨i, _, rfl⟩
    exact hk i
  · exact htv
  · intro d hd
    rw [human_type] at hd
    rw [htv] at hd
    rcases List.mem_map.mp hd with ⟨i, _, rfl⟩
    exact ht i

/-- Witness for C6 (amended): constant in-range draws over a two-letter
text. -/
theorem c6_typing_pacing_witness :
    (∀ i : Nat, 40 ≤ (fun _ => 40) i ∧ (fun _ => 40) i ≤ 150) ∧
    (∀ i : Nat, 300 ≤ (fun _ => 300) i ∧ (fun _ => 300) i ≤ 800) ∧
    (keyDelayValues (human_type (fun _ => 40) (fun _ => 15) (fun _ => 300)
        ("hi".toList)) =
      (List.range ("hi".toList).length).map (fun _ => 40) ∧
      (keyDelayValues (human_type (fun _ => 40) (fun _ => 15) (fun _ => 300)
        ("hi".toList))).length = ("hi".toList).length ∧
      (∀ d ∈ keyDelayValues (human_type (fun _ => 40) (fun _ => 15)
        (fun _ => 300) ("hi".toList)), 40 ≤ d ∧ d ≤ 150) ∧
      thinkPauseValues (human_type (fun _ => 40) (fun _ => 15) (fun _ => 300)
        ("hi".toList)) =
        (pausePositions (fun _ => 15) ("hi".toList).length).map (fun _ => 300) ∧
      (∀ d ∈ thinkPauseValues (human_type (fun _ => 40) (fun _ => 15)
        (fun _ => 300) ("hi".toList)), 300 ≤ d ∧ d ≤ 800)) :=
  ⟨fun i => ⟨show (40 : Nat) ≤ 40 by decide, show (40 : Nat) ≤ 150 by decide⟩,
    fun i => ⟨show (300 : Nat) ≤ 300 by decide, show (300 : Nat) ≤ 800 by decide⟩,
    c6_typing_pacing (fun _ => 40) (fun _ => 15) (fun _ => 300) ("hi".toList)
      (fun i => ⟨show (40 : Nat) ≤ 40 by decide, show (40 : Nat) ≤ 150 by decide⟩)
      (fun i => ⟨show (300 : Nat) ≤ 300 by decide,
        show (300 : Nat) ≤ 800 by decide⟩)⟩

end Thumbtack
